import Mathlib

set_option maxHeartbeats 1000000

/-! Shallow embedding of the proxy operator console.  The canonical source is
the unnamed React file (called part 000 below); the second file index.tsx is a
near-duplicate kept for the refinement comparison.  JS strings are modelled as
lists of characters; JS numbers that only ever hold integers are modelled as
Nat, and the simulator arithmetic is modelled over the rationals. -/

abbrev JSStr := List Char

/-- JS text.split on the newline character: splits at every occurrence and
keeps empty segments, so the result is always nonempty. -/
def splitNl : JSStr → List JSStr
  | [] => [[]]
  | c :: r =>
    if c = '\n' then [] :: splitNl r
    else
      match splitNl r with
      | [] => [[c]]
      | h :: t => (c :: h) :: t

/-- whitespace recognised by JS String.prototype.trim, restricted to the ASCII
whitespace characters relevant here. -/
def isWs (c : Char) : Bool := c = ' ' || c = '\t' || c = '\n' || c = '\r'

/-- JS String.prototype.trim: drop whitespace from both ends. -/
def trimJS (s : JSStr) : JSStr := ((s.dropWhile isWs).reverse.dropWhile isWs).reverse

/-! The line pattern PROXY_REGEX (identical in both source files):

  ((25[0-5]|2[0-4][0-9]|[01]?[0-9][0-9]?)\.){3}(25[0-5]|2[0-4][0-9]|[01]?[0-9][0-9]?)
  :([1-9][0-9]{0,3}|[1-5][0-9]{4}|6[0-4][0-9]{3}|65[0-4][0-9]{2}|655[0-2][0-9]|6553[0-5])

anchored with a leading caret and a trailing dollar.  It is embedded as a
backtracking matcher: each piece maps an input to the list of possible
remainders after consuming a match of that piece, and the anchored test asks
whether some remainder of the whole sequence is empty.  Character classes and
literals are written by decimal code point (48 is the digit zero, 57 the digit
nine, 46 the dot, 58 the colon). -/

/-- the character class [0-9]. -/
def isDig (c : Char) : Bool := 48 ≤ c.toNat && c.toNat ≤ 57

/-- numeric value of a digit character. -/
def dval (c : Char) : Nat := c.toNat - 48

/-- a character class given by an inclusive code point range. -/
def inCR (c : Char) (lo hi : Nat) : Bool := lo ≤ c.toNat && c.toNat ≤ hi

/-- a literal character of the pattern, given by code point. -/
def isCh (c : Char) (n : Nat) : Bool := c.toNat = n

/-- the three-character alternatives of the octet group: 25[0-5], 2[0-4][0-9],
and [01][0-9][0-9] (the last with the optional [01] present and the optional
trailing digit present). -/
def oct3 (a b c : Char) : Bool :=
  (isCh a 50 && isCh b 53 && inCR c 48 53) ||
  (isCh a 50 && inCR b 48 52 && isDig c) ||
  (inCR a 48 49 && isDig b && isDig c)

/-- the two-character alternatives of the octet group: [01][0-9] and
[0-9][0-9], coming from the [01]?[0-9][0-9]? alternative. -/
def oct2 (a b : Char) : Bool := (inCR a 48 49 && isDig b) || (isDig a && isDig b)

/-- the one-character alternative of the octet group: a bare digit. -/
def oct1 (a : Char) : Bool := isDig a

/-- remainders after consuming one octet group (3, 2 or 1 characters). -/
def octetRems : List Char → List (List Char)
  | a :: b :: c :: r =>
    (if oct3 a b c then [r] else []) ++
    (if oct2 a b then [c :: r] else []) ++
    (if oct1 a then [b :: c :: r] else [])
  | [a, b] => (if oct2 a b then [([] : List Char)] else []) ++ (if oct1 a then [[b]] else [])
  | [a] => if oct1 a then [([] : List Char)] else []
  | [] => []

/-- the five-character alternatives of the port group: [1-5][0-9][0-9][0-9][0-9],
6[0-4][0-9][0-9][0-9], 65[0-4][0-9][0-9], 655[0-2][0-9], 6553[0-5]. -/
def prt5 (a b c d e : Char) : Bool :=
  (inCR a 49 53 && isDig b && isDig c && isDig d && isDig e) ||
  (isCh a 54 && inCR b 48 52 && isDig c && isDig d && isDig e) ||
  (isCh a 54 && isCh b 53 && inCR c 48 52 && isDig d && isDig e) ||
  (isCh a 54 && isCh b 53 && isCh c 53 && inCR d 48 50 && isDig e) ||
  (isCh a 54 && isCh b 53 && isCh c 53 && isCh d 51 && inCR e 48 53)

/-- the leading character class [1-9] of the port alternative [1-9][0-9]{0,3}. -/
def prt1 (a : Char) : Bool := inCR a 49 57

/-- remainders after consuming one port group (5, 4, 3, 2 or 1 characters;
the lengths 1 to 4 come from [1-9][0-9]{0,3}). -/
def portRems : List Char → List (List Char)
  | a :: b :: c :: d :: e :: r =>
    (if prt5 a b c d e then [r] else []) ++
    (if prt1 a && isDig b && isDig c && isDig d then [e :: r] else []) ++
    (if prt1 a && isDig b && isDig c then [d :: e :: r] else []) ++
    (if prt1 a && isDig b then [c :: d :: e :: r] else []) ++
    (if prt1 a then [b :: c :: d :: e :: r] else [])
  | [a, b, c, d] =>
    (if prt1 a && isDig b && isDig c && isDig d then [([] : List Char)] else []) ++
    (if prt1 a && isDig b && isDig c then [[d]] else []) ++
    (if prt1 a && isDig b then [[c, d]] else []) ++
    (if prt1 a then [[b, c, d]] else [])
  | [a, b, c] =>
    (if prt1 a && isDig b && isDig c then [([] : List Char)] else []) ++
    (if prt1 a && isDig b then [[c]] else []) ++
    (if prt1 a then [[b, c]] else [])
  | [a, b] =>
    (if prt1 a && isDig b then [([] : List Char)] else []) ++ (if prt1 a then [[b]] else [])
  | [a] => if prt1 a then [([] : List Char)] else []
  | [] => []

/-- remainders after consuming one literal character with the given code point. -/
def litRems (n : Nat) : List Char → List (List Char)
  | [] => []
  | c :: r => if c.toNat = n then [r] else []

/-- remainders of the whole anchored pattern: octet dot, three times, then an
octet, a colon and the port group. -/
def proxyRems (cs : List Char) : List (List Char) :=
  ((((((((octetRems cs).flatMap (litRems 46)).flatMap octetRems).flatMap
    (litRems 46)).flatMap octetRems).flatMap (litRems 46)).flatMap
    octetRems).flatMap (litRems 58)).flatMap portRems

/-- PROXY_REGEX.test: the anchored pattern accepts the whole line. -/
def proxyRegexTest (cs : JSStr) : Bool := (proxyRems cs).any List.isEmpty

/-- acceptance of a whole string by the octet group alone. -/
def octetAccept (cs : List Char) : Bool := (octetRems cs).any List.isEmpty

/-- acceptance of a whole string by the port group alone. -/
def portAccept (cs : List Char) : Bool := (portRems cs).any List.isEmpty

/-- the line pipeline shared by the validator and the sync aggregation:
text.split on newline, map trim, filter nonempty. -/
def nonemptyTrimmedLines (text : JSStr) : List JSStr :=
  ((splitNl text).map trimJS).filter (fun l => decide (0 < l.length))

/-- ValidationResult of the canonical file: overall flag, offending lines and
the count of nonempty trimmed lines. -/
structure ValidationResult where
  isValid : Bool
  invalidLines : List JSStr
  totalLines : Nat
deriving DecidableEq

/-- validateProxies of the canonical file: split on newlines, trim each line,
keep the nonempty ones, and report the lines that fail PROXY_REGEX. -/
def validateProxies (text : JSStr) : ValidationResult :=
  let lines := nonemptyTrimmedLines text
  if lines.length = 0 then ⟨true, [], 0⟩
  else
    let invalidLines := lines.filter (fun line => !proxyRegexTest line)
    ⟨invalidLines.length == 0, invalidLines, lines.length⟩

/-- ValidationResult of index.tsx, which omits the total line count. -/
structure ValidationResultIdx where
  isValid : Bool
  invalidLines : List JSStr
deriving DecidableEq

/-- validateProxies of index.tsx: identical pipeline, smaller result record. -/
def validateProxiesIdx (text : JSStr) : ValidationResultIdx :=
  let lines := nonemptyTrimmedLines text
  if lines.length = 0 then ⟨true, []⟩
  else
    let invalidLines := lines.filter (fun line => !proxyRegexTest line)
    ⟨invalidLines.length == 0, invalidLines⟩

example : proxyRegexTest "1.2.3.4:80".data = true := by decide
example : proxyRegexTest "255.255.255.255:65535".data = true := by decide
example : proxyRegexTest "256.1.1.1:80".data = false := by decide
example : proxyRegexTest "1.1.1.1:0".data = false := by decide
example : proxyRegexTest "1.1.1.1:65536".data = false := by decide
example : proxyRegexTest "007.0.0.1:80".data = true := by decide
example : proxyRegexTest "1.1.1.1:080".data = false := by decide
example : (validateProxies [] ).isValid = true := by decide
example : (validateProxies [' ', 'b', 'a', 'd']).invalidLines = [['b', 'a', 'd']] := by decide

/-! The dual-source synchronization engine of the canonical file.  A fetch
attempt is abstracted by an oracle giving, per attempt index, the outcome of
the network call, together with the state of the shared cancellation signal at
the check performed before the attempt.  Log entries keep the message and the
severity; timestamps are irrelevant to the claims and are omitted. -/

inductive Severity where
  | info
  | success
  | warning
  | error
  | packet
deriving DecidableEq

structure Log where
  message : String
  sev : Severity
deriving DecidableEq

inductive SyncState where
  | idle
  | syncing
  | retrying
  | success
  | error
  | cancelled
deriving DecidableEq

/-- how one fetch attempt can end: an ok response with a body, an abort raised
while the request is in flight (the shared signal fired mid-request, so the
error named AbortError is rethrown by the catch block), or a failure. -/
inductive FailKind where
  | http (status : Nat) (statusText : String)
  | typeErr
  | other (msg : String)
deriving DecidableEq

inductive FetchOutcome where
  | ok (body : JSStr)
  | abort
  | fail (k : FailKind)
deriving DecidableEq

/-- environment of one retry loop: the outcome of the fetch on each attempt
index, and whether the shared signal is already aborted at the check made at
the top of that iteration. -/
structure FetchEnv where
  outcome : Nat → FetchOutcome
  abortedAt : Nat → Bool

/-- how fetchWithRetry resolves: with content, with null, or by throwing the
cancellation condition (the error whose name is AbortError). -/
inductive FetchResult where
  | content (s : JSStr)
  | nullResult
  | abortedThrow
deriving DecidableEq

/-- the observable effects of one fetchWithRetry call: its log entries in
order, the last SourceState it set (none if it never set one), the backoff
waits it performed in order (in milliseconds), the number of fetch attempts
actually performed, and its resolution. -/
structure FetchEffects where
  logs : List Log
  state : Option SyncState
  waits : List Nat
  attempts : Nat
  result : FetchResult
deriving DecidableEq

/-- per-attempt warning text of the canonical file.  The catch block prefixes
the cluster and attempt counter, then describes the failure: an HTTP status
line for a non-ok response, a fixed network text for a TypeError, and the raw
message (or a fixed fallback when that message is empty) otherwise. -/
def failMsg (side : String) (attempt maxRetries : Nat) (k : FailKind) : String :=
  let base := s!"Cluster {side} attempt {attempt + 1}/{maxRetries + 1} failed: "
  match k with
  | .http status statusText => base ++ s!"Server returned HTTP_{status} :: {statusText}"
  | .typeErr => base ++ "Network error or CORS policy restriction detected."
  | .other m => base ++ (if m = "" then "Unknown connectivity issue." else m)

/-- terminal failure text of the canonical file. -/
def terminalMsg (side : String) (maxRetries : Nat) : String :=
  s!"Cluster {side} terminal failure: Unable to establish link after {maxRetries + 1} attempts."

/-- the retry loop of the canonical fetchWithRetry, by remaining iterations.
The loop runs attempt indices 0 up to maxRetries; fuel is the number of
iterations still allowed, so the fuel-zero case is the fall-through return of
null after the loop.  Each iteration first checks the shared signal and throws
if it is already aborted, then sets the side state to syncing (first attempt)
or retrying, performs the fetch, and on failure logs a warning and either
finishes with the terminal error (last attempt) or waits 1500 times two to the
attempt and recurses. -/
def fetchLoop (side : String) (maxRetries : Nat) (env : FetchEnv) : Nat → Nat → FetchEffects
  | _, 0 => ⟨[], none, [], 0, .nullResult⟩
  | attempt, fuel + 1 =>
    if env.abortedAt attempt then ⟨[], none, [], 0, .abortedThrow⟩
    else
      let st : SyncState := if attempt = 0 then .syncing else .retrying
      match env.outcome attempt with
      | .ok body => ⟨[], some .success, [], 1, .content body⟩
      | .abort => ⟨[], some st, [], 1, .abortedThrow⟩
      | .fail k =>
        let warn : Log := ⟨failMsg side attempt maxRetries k, .warning⟩
        if attempt = maxRetries then
          ⟨[warn, ⟨terminalMsg side maxRetries, .error⟩], some .error, [], 1, .nullResult⟩
        else
          let rest := fetchLoop side maxRetries env (attempt + 1) fuel
          ⟨warn :: rest.logs, some (rest.state.getD st),
            (1500 * 2 ^ attempt) :: rest.waits, 1 + rest.attempts, rest.result⟩

/-- fetchWithRetry of the canonical file: an empty url resolves to null at
once with no state change, no log and no attempt; otherwise the retry loop
runs with attempt indices 0 to maxRetries. -/
def fetchWithRetry (url : JSStr) (side : String) (maxRetries : Nat := 3)
    (env : FetchEnv) : FetchEffects :=
  if url = [] then ⟨[], none, [], 0, .nullResult⟩
  else fetchLoop side maxRetries env 0 (maxRetries + 1)

/-- the retry loop of the index.tsx near-duplicate.  Differences from the
canonical file: no per-attempt warning log, the terminal error text counts
maxRetries rather than maxRetries plus one attempts, and the backoff base is
1000 milliseconds.  The abort throw at the loop head still propagates out of
the unit (Promise.allSettled then swallows it). -/
def fetchLoopIdx (side : String) (maxRetries : Nat) (env : FetchEnv) : Nat → Nat → FetchEffects
  | _, 0 => ⟨[], none, [], 0, .nullResult⟩
  | attempt, fuel + 1 =>
    if env.abortedAt attempt then ⟨[], none, [], 0, .abortedThrow⟩
    else
      let st : SyncState := if attempt = 0 then .syncing else .retrying
      match env.outcome attempt with
      | .ok body => ⟨[], some .success, [], 1, .content body⟩
      | .abort => ⟨[], some st, [], 1, .abortedThrow⟩
      | .fail _ =>
        if attempt = maxRetries then
          ⟨[⟨s!"Cluster {side} connection timeout after {maxRetries} attempts.", .error⟩],
            some .error, [], 1, .nullResult⟩
        else
          let rest := fetchLoopIdx side maxRetries env (attempt + 1) fuel
          ⟨rest.logs, some (rest.state.getD st),
            (1000 * 2 ^ attempt) :: rest.waits, 1 + rest.attempts, rest.result⟩

/-- fetchWithRetry of index.tsx. -/
def fetchWithRetryIdx (url : JSStr) (side : String) (maxRetries : Nat := 3)
    (env : FetchEnv) : FetchEffects :=
  if url = [] then ⟨[], none, [], 0, .nullResult⟩
  else fetchLoopIdx side maxRetries env 0 (maxRetries + 1)

/-- component state touched by the coordinator: the two side states and the
two proxy list texts. -/
structure CoordState where
  statusA : SyncState
  statusB : SyncState
  proxiesLeft : JSStr
  proxiesRight : JSStr
deriving DecidableEq

/-- the isSyncing flag of the canonical file. -/
def isSyncing (st : CoordState) : Bool :=
  decide (st.statusA = .syncing) || decide (st.statusB = .syncing) ||
  decide (st.statusA = .retrying) || decide (st.statusB = .retrying)

/-- how the awaited Promise.all of the two units settles: both resolved (each
with content or null), or rejected.  The units throw nothing but the abort
condition, so the only rejection is the AbortError one. -/
inductive SessionOutcome where
  | settled (a b : Option JSStr)
  | abortRejected
deriving DecidableEq

def joinResults : FetchResult → FetchResult → SessionOutcome
  | .abortedThrow, _ => .abortRejected
  | _, .abortedThrow => .abortRejected
  | ra, rb =>
    .settled (match ra with | .content s => some s | _ => none)
      (match rb with | .content s => some s | _ => none)

/-- the functional update applied to each side state in the AbortError branch
of the coordinator: a side still syncing or retrying falls back to idle, any
other state is kept. -/
def resetOnAbort (s : SyncState) : SyncState :=
  if s = .syncing ∨ s = .retrying then .idle else s

/-- the per-side aggregation body of the canonical coordinator: a side with
truthy (nonempty) content has it split into nonempty trimmed lines, filtered
through PROXY_REGEX, and joined with newlines into the new proxy text; the log
is a warning when there were lines but none validated, and otherwise a success
message carrying valid and total counts. -/
def aggregateSide (side : String) (content : Option JSStr) (old : JSStr) :
    JSStr × List Log :=
  match content with
  | none => (old, [])
  | some s =>
    if s = [] then (old, [])
    else
      let allLines := nonemptyTrimmedLines s
      let validProxies := allLines.filter (fun l => proxyRegexTest l)
      let newText := List.intercalate ['\n'] validProxies
      if validProxies.length = 0 ∧ 0 < allLines.length then
        (newText,
          [⟨s!"Cluster {side} fetch successful, but 0 valid proxy patterns found in {allLines.length} lines.",
            .warning⟩])
      else
        (newText,
          [⟨s!"Cluster {side} synchronization complete. Loaded {validProxies.length}/{allLines.length} valid nodes.",
            .success⟩])

/-- everything one handleSyncFromUrls invocation produces: the new component
state, the opening log entries, the two units log streams (side A and side B
messages interleave in real time, but each stream is chronological), and the
log entries of the aggregation or catch phase. -/
structure SyncRun where
  st : CoordState
  preLogs : List Log
  logsA : List Log
  logsB : List Log
  postLogs : List Log
  ran : Bool
deriving DecidableEq

/-- handleSyncFromUrls of the canonical file.  A running session makes the
call a no-op; two empty urls fail fast with one error log; otherwise the two
units run on a shared signal, their results are awaited together, and either
the settled contents are aggregated per side or the AbortError rejection is
caught, logging a single operator warning and resetting the still-pending
sides to idle. -/
def handleSyncFromUrls (st : CoordState) (urlA urlB : JSStr)
    (envA envB : FetchEnv) : SyncRun :=
  if isSyncing st then ⟨st, [], [], [], [], false⟩
  else if urlA = [] ∧ urlB = [] then
    ⟨st, [⟨"Sync error: No cluster endpoints defined in configuration.", .error⟩],
      [], [], [], false⟩
  else
    let effA := fetchWithRetry urlA "A" 3 envA
    let effB := fetchWithRetry urlB "B" 3 envB
    let stA := effA.state.getD st.statusA
    let stB := effB.state.getD st.statusB
    let pre : List Log := [⟨"Initiating Multi-Cluster Synchronize sequence...", .info⟩]
    match joinResults effA.result effB.result with
    | .settled ca cb =>
      let aggA := aggregateSide "A" ca st.proxiesLeft
      let aggB := aggregateSide "B" cb st.proxiesRight
      ⟨⟨stA, stB, aggA.1, aggB.1⟩, pre, effA.logs, effB.logs, aggA.2 ++ aggB.2, true⟩
    | .abortRejected =>
      ⟨⟨resetOnAbort stA, resetOnAbort stB, st.proxiesLeft, st.proxiesRight⟩, pre,
        effA.logs, effB.logs,
        [⟨"Synchronization sequence manually terminated by operator.", .warning⟩], true⟩

/-! The two capped buffers.  addLog keeps the last 99 entries and appends the
new one; the history tick appends the new point and keeps the last 25.  The
negative-index JS slice is modelled directly. -/

/-- JS list.slice with a negative start: the last n elements (all of them when
the list is shorter). -/
def jsSliceNeg (n : Nat) (l : List α) : List α := l.drop (l.length - n)

/-- the addLog state update of the canonical file. -/
def addLogUpd (l : List Log) (e : Log) : List Log := jsSliceNeg 99 l ++ [e]

/-- a history point: a time label and the cumulative counter. -/
structure HistoryEntry where
  time : String
  views : Int
deriving DecidableEq

/-- the setViewHistory update performed on each simulator tick. -/
def pushHistory (h : List HistoryEntry) (pt : HistoryEntry) : List HistoryEntry :=
  jsSliceNeg 25 (h ++ [pt])

/-- one step of the Log Buffer: an append through addLog, or the clear button. -/
inductive LogBufStep : List Log → List Log → Prop
  | add (l : List Log) (e : Log) : LogBufStep l (addLogUpd l e)
  | clear (l : List Log) : LogBufStep l []

/-- one step of the History Buffer: a simulator tick append, the reset-data
clear, or the single-point reseed done when a run starts. -/
inductive HistStep : List HistoryEntry → List HistoryEntry → Prop
  | tick (h : List HistoryEntry) (pt : HistoryEntry) : HistStep h (pushHistory h pt)
  | clear (h : List HistoryEntry) : HistStep h []
  | seed (h : List HistoryEntry) (pt : HistoryEntry) : HistStep h [pt]

/-! The metrics simulator tick.  Math.random() is a draw u from the unit
interval; the increment is the floor of videoViews times incrementPercentage
over one hundred times (u times two fifths plus four fifths), and the new
cumulative value adds that increment to the previous one.  JS number
arithmetic is modelled over the rationals. -/

/-- the increment computed by one tick of setSimulatedViews. -/
def simTickDelta (videoViews incrementPercentage u : ℚ) : ℤ :=
  ⌊videoViews * (incrementPercentage / 100) * (u * (2 / 5) + 4 / 5)⌋

/-- the new cumulative value after one tick. -/
def simTickNewVal (videoViews incrementPercentage prev u : ℚ) : ℚ :=
  prev + (simTickDelta videoViews incrementPercentage u : ℚ)

/-! Spec-side vocabulary for the line pattern claim: the numeric value of a
digit string, the no-leading-zero side condition, and the token shapes the
pattern accepts for an octet and for a port. -/

/-- numeric value of a digit string, most significant digit first. -/
def valD (xs : List Char) : Nat := xs.foldl (fun n c => 10 * n + dval c) 0

/-- the numeral does not start with the zero digit. -/
def noLeadZero (xs : List Char) : Prop := ∀ a t, xs = a :: t → a.toNat ≠ 48

/-- an octet as the pattern accepts it: one to three digit characters whose
value is at most 255 (leading zeros within three characters are accepted by
the [01]?[0-9][0-9]? alternative). -/
def octetToken (xs : List Char) : Prop :=
  1 ≤ xs.length ∧ xs.length ≤ 3 ∧ (∀ c ∈ xs, isDig c = true) ∧ valD xs ≤ 255

/-- a port as the pattern accepts it: a decimal numeral of up to five digits,
no leading zero, value between 1 and 65535. -/
def portToken (xs : List Char) : Prop :=
  1 ≤ xs.length ∧ xs.length ≤ 5 ∧ (∀ c ∈ xs, isDig c = true) ∧ noLeadZero xs ∧
    1 ≤ valD xs ∧ valD xs ≤ 65535

/-- the shape A dot B dot C dot D colon P of a candidate line. -/
def lineChars (A B C D P : List Char) : List Char :=
  A ++ '.' :: (B ++ '.' :: (C ++ '.' :: (D ++ ':' :: P)))

/-! Theorems.  Helper lemmas come first, then one theorem per claim (with a
witness or counterexample where required). -/

/-- helper: pointwise equal functions map lists equally. -/
theorem mapCongrMem {α β : Type} {l : List α} {f g : α → β}
    (h : ∀ a ∈ l, f a = g a) : l.map f = l.map g := by
  induction l with
  | nil => rfl
  | cons x t ih => simp [h x (by simp), ih fun a ha => h a (by simp [ha])]

/-- helper: pointwise equal predicates agree under any. -/
theorem anyCongrMem {α : Type} {l : List α} {p q : α → Bool}
    (h : ∀ a ∈ l, p a = q a) : l.any p = l.any q := by
  induction l with
  | nil => rfl
  | cons x t ih => simp [h x (by simp), ih fun a ha => h a (by simp [ha])]

/-- helper: any distributes over flatMap. -/
theorem anyFlatMap {α β : Type} (l : List α) (f : α → List β) (p : β → Bool) :
    (l.flatMap f).any p = l.any fun a => (f a).any p := by
  induction l with
  | nil => rfl
  | cons x t ih => simp [ih]

/-- helper: a constant conjunct moves out of any. -/
theorem anyAndConst {α : Type} (l : List α) (p : α → Bool) (b : Bool) :
    (l.any fun a => p a && b) = (l.any p && b) := by
  cases b <;> simp

/-- helper: membership in a conditional singleton. -/
theorem memIteSingleton {α : Type} {p : Prop} [Decidable p] {a b : α} :
    a ∈ (if p then [b] else []) ↔ p ∧ a = b := by
  split <;> simp_all

/-- a concrete environment in which every fetch attempt fails with a network
error and the token never fires. -/
def envAllFail : FetchEnv := ⟨fun _ => .fail .typeErr, fun _ => false⟩

/-- C10: the two near-duplicate validateProxies functions agree on the outputs
they share: same overall flag and same invalid-line sequence for every input
text (the canonical file additionally returns the total line count). -/
theorem c10_validator_equivalence (text : JSStr) :
    (validateProxies text).isValid = (validateProxiesIdx text).isValid ∧
    (validateProxies text).invalidLines = (validateProxiesIdx text).invalidLines := by
  unfold validateProxies validateProxiesIdx
  by_cases h : (nonemptyTrimmedLines text).length = 0 <;> simp [h]

/-- C8 (amended): totalLines counts the nonempty trimmed lines, isValid holds
exactly when invalidLines is empty (so empty or all-whitespace input with zero
lines is valid), and invalidLines lists, in input order, the trimmed text of
each nonempty line that fails the pattern. -/
theorem c8_validate_structure (text : JSStr) :
    (validateProxies text).totalLines = (nonemptyTrimmedLines text).length ∧
    ((validateProxies text).isValid = true ↔ (validateProxies text).invalidLines = []) ∧
    (validateProxies text).invalidLines =
      (nonemptyTrimmedLines text).filter (fun line => !proxyRegexTest line) ∧
    (validateProxies []).isValid = true ∧ (validateProxies []).totalLines = 0 := by
  have key : (validateProxies text).totalLines = (nonemptyTrimmedLines text).length ∧
      ((validateProxies text).isValid = true ↔ (validateProxies text).invalidLines = []) ∧
      (validateProxies text).invalidLines =
        (nonemptyTrimmedLines text).filter (fun line => !proxyRegexTest line) := by
    unfold validateProxies
    by_cases h : (nonemptyTrimmedLines text).length = 0
    · have he : nonemptyTrimmedLines text = [] := List.length_eq_zero.mp h
      simp [h, he]
    · simp [h, List.length_eq_zero]
  exact ⟨key.1, key.2.1, key.2.2, by decide, by decide⟩

/-- C8 counterexample: the claim as stated wants invalidLines to carry the
original untrimmed text of a failing line, but the source trims before
filtering, so the line consisting of a space then the letters b a d is
reported in trimmed form. -/
theorem c8_counterexample :
    (validateProxies [' ', 'b', 'a', 'd']).invalidLines ≠ [[' ', 'b', 'a', 'd']] ∧
    (validateProxies [' ', 'b', 'a', 'd']).invalidLines = [['b', 'a', 'd']] := by
  constructor
  · decide
  · decide

/-- C5: both buffers stay below their caps on every reachable state, and an
append evicts only the oldest entries: the survivors are a suffix of the
previous buffer (the appended entry coming last), so chronological order is
preserved. -/
theorem c5_buffer_bounds :
    (∀ l : List Log, Relation.ReflTransGen LogBufStep [] l → l.length ≤ 100) ∧
    (∀ h : List HistoryEntry, Relation.ReflTransGen HistStep [] h → h.length ≤ 25) ∧
    (∀ (l : List Log) (e : Log),
      addLogUpd l e = jsSliceNeg 99 l ++ [e] ∧ jsSliceNeg 99 l <:+ l) ∧
    (∀ (h : List HistoryEntry) (pt : HistoryEntry),
      pushHistory h pt = jsSliceNeg 25 (h ++ [pt]) ∧ jsSliceNeg 25 (h ++ [pt]) <:+ h ++ [pt]) := by
  refine ⟨?_, ?_, ?_, ?_⟩
  · intro l hr
    induction hr with
    | refl => simp
    | tail _ step _ =>
      cases step with
      | add e => simp [addLogUpd, jsSliceNeg]; omega
      | clear => simp
  · intro h hr
    induction hr with
    | refl => simp
    | tail _ step _ =>
      cases step with
      | tick pt => simp [pushHistory, jsSliceNeg]; omega
      | clear => simp
      | seed pt => simp
  · exact fun l e => ⟨rfl, List.drop_suffix _ _⟩
  · exact fun h pt => ⟨rfl, List.drop_suffix _ _⟩

/-- C5 witness: the bound theorems applied to concrete one-step reachable
buffers. -/
theorem c5_buffer_bounds_witness :
    (addLogUpd [] ⟨"boot", Severity.info⟩).length ≤ 100 ∧
    (pushHistory [] ⟨"t0", 0⟩).length ≤ 25 :=
  ⟨c5_buffer_bounds.1 _ (Relation.ReflTransGen.single (LogBufStep.add [] _)),
   c5_buffer_bounds.2.1 _ (Relation.ReflTransGen.single (HistStep.tick [] _))⟩

/-- C9: with target one hundred thousand and velocity thirty three percent,
one tick from the seeded total adds the floor of one hundred thousand times
thirty three hundredths times the random factor, landing in the inclusive
range 126400 to 139600 for every unit draw. -/
theorem c9_tick_range (u : ℚ) (h0 : 0 ≤ u) (h1 : u < 1) :
    126400 ≤ simTickNewVal 100000 33 100000 u ∧
    simTickNewVal 100000 33 100000 u ≤ 139600 := by
  have hx : (100000 : ℚ) * (33 / 100) * (u * (2 / 5) + 4 / 5) = 13200 * u + 26400 := by
    ring
  have hlo : (26400 : ℤ) ≤ simTickDelta 100000 33 u := by
    rw [simTickDelta, hx]
    exact Int.le_floor.mpr (by push_cast; linarith)
  have hhi : simTickDelta 100000 33 u < 39600 := by
    rw [simTickDelta, hx]
    exact Int.floor_lt.mpr (by push_cast; linarith)
  unfold simTickNewVal
  constructor
  · have hc : ((26400 : ℤ) : ℚ) ≤ (simTickDelta 100000 33 u : ℚ) := by exact_mod_cast hlo
    push_cast at hc ⊢
    linarith
  · have hle : simTickDelta 100000 33 u ≤ 39599 := by omega
    have hc : (simTickDelta 100000 33 u : ℚ) ≤ ((39599 : ℤ) : ℚ) := by exact_mod_cast hle
    push_cast at hc ⊢
    linarith

/-- C9 witness: the tick bound at the zero draw. -/
theorem c9_tick_range_witness :
    126400 ≤ simTickNewVal 100000 33 100000 0 ∧
    simTickNewVal 100000 33 100000 0 ≤ 139600 :=
  c9_tick_range 0 (by norm_num) (by norm_num)

/-- helper: an all-failing retry loop run from any attempt index performs
exactly the remaining iterations, logs one warning per attempt plus a single
terminal error, ends in the error state and resolves to null. -/
theorem fetchLoop_allFail (side : String) (maxR : Nat) (env : FetchEnv)
    (hA : ∀ i, env.abortedAt i = false) (hO : ∀ i, ∃ k, env.outcome i = FetchOutcome.fail k) :
    ∀ fuel attempt, attempt + fuel = maxR + 1 → 0 < fuel →
      (fetchLoop side maxR env attempt fuel).attempts = fuel ∧
      (fetchLoop side maxR env attempt fuel).result = .nullResult ∧
      (fetchLoop side maxR env attempt fuel).state = some .error ∧
      ((fetchLoop side maxR env attempt fuel).logs.filter
        (fun l => decide (l.sev = .warning))).length = fuel ∧
      (fetchLoop side maxR env attempt fuel).logs.filter (fun l => decide (l.sev = .error)) =
        [⟨terminalMsg side maxR, .error⟩] := by
  intro fuel
  induction fuel with
  | zero => intro attempt _ h0; exact absurd h0 (by omega)
  | succ f ih =>
    intro attempt hsum _
    obtain ⟨k, hk⟩ := hO attempt
    by_cases hlast : attempt = maxR
    · have hf : f = 0 := by omega
      subst hf
      subst hlast
      simp [fetchLoop, hA, hk]
    · have hf : 0 < f := by omega
      have ihh := ih (attempt + 1) (by omega) hf
      simp only [fetchLoop]
      simp [hA, hk, hlast, ihh.1, ihh.2.1, ihh.2.2.1, ihh.2.2.2.1, ihh.2.2.2.2]
      omega

/-- C2: with a nonempty url, a never-signalled token and every attempt
failing, the unit performs exactly four attempts (maxRetries plus one with the
default of three), logs one warning per failed attempt, ends the side state in
error with exactly one terminal error log naming the side, and resolves to
null. -/
theorem c2_always_fail (side : String) (url : JSStr) (env : FetchEnv)
    (hu : url ≠ []) (hA : ∀ i, env.abortedAt i = false)
    (hO : ∀ i, ∃ k, env.outcome i = FetchOutcome.fail k) :
    (fetchWithRetry url side 3 env).attempts = 4 ∧
    (fetchWithRetry url side 3 env).result = .nullResult ∧
    (fetchWithRetry url side 3 env).state = some .error ∧
    ((fetchWithRetry url side 3 env).logs.filter
      (fun l => decide (l.sev = .warning))).length = 4 ∧
    (fetchWithRetry url side 3 env).logs.filter (fun l => decide (l.sev = .error)) =
      [⟨terminalMsg side 3, .error⟩] := by
  have h := fetchLoop_allFail side 3 env hA hO 4 0 (by omega) (by omega)
  rw [fetchWithRetry, if_neg hu]
  exact h


/-- C2 witness: the always-fail theorem at a concrete url and environment. -/
theorem c2_always_fail_witness :
    (fetchWithRetry ['x'] "A" 3 envAllFail).attempts = 4 ∧
    (fetchWithRetry ['x'] "A" 3 envAllFail).result = .nullResult ∧
    (fetchWithRetry ['x'] "A" 3 envAllFail).state = some .error ∧
    ((fetchWithRetry ['x'] "A" 3 envAllFail).logs.filter
      (fun l => decide (l.sev = .warning))).length = 4 ∧
    (fetchWithRetry ['x'] "A" 3 envAllFail).logs.filter (fun l => decide (l.sev = .error)) =
      [⟨terminalMsg "A" 3, .error⟩] :=
  c2_always_fail "A" ['x'] envAllFail (by decide) (fun _ => rfl)
    (fun _ => ⟨.typeErr, rfl⟩)

/-- helper: the waits performed by the canonical retry loop from a given
attempt index follow the 1500 times two to the attempt schedule, one wait per
failed non-final attempt, none after the final one. -/
theorem fetchLoop_waits (side : String) (maxR : Nat) (env : FetchEnv) :
    ∀ fuel attempt, attempt + fuel = maxR + 1 →
      ∃ w, (fetchLoop side maxR env attempt fuel).waits =
          (List.range w).map (fun i => 1500 * 2 ^ (attempt + i)) ∧ w ≤ fuel - 1 := by
  intro fuel
  induction fuel with
  | zero => intro attempt _; exact ⟨0, by simp [fetchLoop], by omega⟩
  | succ f ih =>
    intro attempt hsum
    by_cases hab : env.abortedAt attempt = true
    · exact ⟨0, by simp [fetchLoop, hab], by omega⟩
    · have hab' : env.abortedAt attempt = false := by
        cases hx : env.abortedAt attempt
        · rfl
        · exact absurd hx hab
      cases ho : env.outcome attempt with
      | ok body => exact ⟨0, by simp [fetchLoop, hab', ho], by omega⟩
      | abort => exact ⟨0, by simp [fetchLoop, hab', ho], by omega⟩
      | fail k =>
        by_cases hlast : attempt = maxR
        · subst hlast
          exact ⟨0, by simp [fetchLoop, hab', ho], by omega⟩
        · have hf : 0 < f := by omega
          obtain ⟨w, hw, hwle⟩ := ih (attempt + 1) (by omega)
          refine ⟨w + 1, ?_, by omega⟩
          have hstep : (fetchLoop side maxR env attempt (f + 1)).waits =
              1500 * 2 ^ attempt :: (fetchLoop side maxR env (attempt + 1) f).waits := by
            simp [fetchLoop, hab', ho, hlast]
          rw [hstep, hw, List.range_succ_eq_map, List.map_cons, List.map_map]
          refine congrArg₂ List.cons (by norm_num) (mapCongrMem fun i _ => ?_)
          show 1500 * 2 ^ (attempt + 1 + i) = 1500 * 2 ^ (attempt + (i + 1))
          exact congrArg (fun n => 1500 * 2 ^ n) (by omega)

/-- helper: the index.tsx retry loop follows the same schedule with a base of
1000 milliseconds. -/
theorem fetchLoopIdx_waits (side : String) (maxR : Nat) (env : FetchEnv) :
    ∀ fuel attempt, attempt + fuel = maxR + 1 →
      ∃ w, (fetchLoopIdx side maxR env attempt fuel).waits =
          (List.range w).map (fun i => 1000 * 2 ^ (attempt + i)) ∧ w ≤ fuel - 1 := by
  intro fuel
  induction fuel with
  | zero => intro attempt _; exact ⟨0, by simp [fetchLoopIdx], by omega⟩
  | succ f ih =>
    intro attempt hsum
    by_cases hab : env.abortedAt attempt = true
    · exact ⟨0, by simp [fetchLoopIdx, hab], by omega⟩
    · have hab' : env.abortedAt attempt = false := by
        cases hx : env.abortedAt attempt
        · rfl
        · exact absurd hx hab
      cases ho : env.outcome attempt with
      | ok body => exact ⟨0, by simp [fetchLoopIdx, hab', ho], by omega⟩
      | abort => exact ⟨0, by simp [fetchLoopIdx, hab', ho], by omega⟩
      | fail k =>
        by_cases hlast : attempt = maxR
        · subst hlast
          exact ⟨0, by simp [fetchLoopIdx, hab', ho], by omega⟩
        · have hf : 0 < f := by omega
          obtain ⟨w, hw, hwle⟩ := ih (attempt + 1) (by omega)
          refine ⟨w + 1, ?_, by omega⟩
          have hstep : (fetchLoopIdx side maxR env attempt (f + 1)).waits =
              1000 * 2 ^ attempt :: (fetchLoopIdx side maxR env (attempt + 1) f).waits := by
            simp [fetchLoopIdx, hab', ho, hlast]
          rw [hstep, hw, List.range_succ_eq_map, List.map_cons, List.map_map]
          refine congrArg₂ List.cons (by norm_num) (mapCongrMem fun i _ => ?_)
          show 1000 * 2 ^ (attempt + 1 + i) = 1000 * 2 ^ (attempt + (i + 1))
          exact congrArg (fun n => 1000 * 2 ^ n) (by omega)

/-- C6 (amended): in the canonical file the wait after the failed non-final
attempt with index j is exactly 1500 milliseconds times two to the j, with no
jitter and no wait after the final attempt; the index.tsx near-duplicate
follows the same shape with a base of 1000 milliseconds instead. -/
theorem c6_backoff_schedule (url : JSStr) (side : String) (maxR : Nat) (env : FetchEnv) :
    ((fetchWithRetry url side maxR env).waits =
        (List.range (fetchWithRetry url side maxR env).waits.length).map
          (fun i => 1500 * 2 ^ i) ∧
      (fetchWithRetry url side maxR env).waits.length ≤ maxR) ∧
    ((fetchWithRetryIdx url side maxR env).waits =
        (List.range (fetchWithRetryIdx url side maxR env).waits.length).map
          (fun i => 1000 * 2 ^ i) ∧
      (fetchWithRetryIdx url side maxR env).waits.length ≤ maxR) := by
  constructor
  · by_cases hu : url = []
    · simp [fetchWithRetry, hu]
    · obtain ⟨w, hw, hwle⟩ := fetchLoop_waits side maxR env (maxR + 1) 0 (by omega)
      rw [fetchWithRetry, if_neg hu]
      rw [hw]
      simp only [List.length_map, List.length_range]
      refine ⟨mapCongrMem fun i _ => by norm_num, by omega⟩
  · by_cases hu : url = []
    · simp [fetchWithRetryIdx, hu]
    · obtain ⟨w, hw, hwle⟩ := fetchLoopIdx_waits side maxR env (maxR + 1) 0 (by omega)
      rw [fetchWithRetryIdx, if_neg hu]
      rw [hw]
      simp only [List.length_map, List.length_range]
      refine ⟨mapCongrMem fun i _ => by norm_num, by omega⟩

/-- C6 counterexample: in index.tsx, after the failed attempt with index zero
the unit waits 1000 milliseconds, not 1500 times two to the zero as the claim
states for both cited files. -/
theorem c6_counterexample :
    (fetchWithRetryIdx ['x'] "A" 3 envAllFail).waits = [1000, 2000, 4000] ∧
    ¬(1000 : Nat) = 1500 * 2 ^ 0 := by
  constructor
  · rfl
  · decide

/-- helper: a retry loop run that resolves with content logged no error entry
(warnings at most, since the terminal error only accompanies a null result). -/
theorem fetchLoop_content_no_error (side : String) (maxR : Nat) (env : FetchEnv) (s : JSStr) :
    ∀ fuel attempt, (fetchLoop side maxR env attempt fuel).result = .content s →
      (fetchLoop side maxR env attempt fuel).logs.filter
        (fun l => decide (l.sev = .error)) = [] := by
  intro fuel
  induction fuel with
  | zero => intro attempt h; simp [fetchLoop] at h
  | succ f ih =>
    intro attempt h
    by_cases hab : env.abortedAt attempt = true
    · simp [fetchLoop, hab] at h
    · have hab' : env.abortedAt attempt = false := by
        cases hx : env.abortedAt attempt
        · rfl
        · exact absurd hx hab
      cases ho : env.outcome attempt with
      | ok body => simp [fetchLoop, hab', ho]
      | abort => simp [fetchLoop, hab', ho] at h
      | fail k =>
        by_cases hlast : attempt = maxR
        · subst hlast
          simp [fetchLoop, hab', ho] at h
        · have hres : (fetchLoop side maxR env (attempt + 1) f).result = .content s := by
            simpa [fetchLoop, hab', ho, hlast] using h
          simp [fetchLoop, hab', ho, hlast, ih (attempt + 1) hres]

/-- helper: the same statement lifted to fetchWithRetry. -/
theorem fetchWithRetry_content_no_error (url : JSStr) (side : String) (maxR : Nat)
    (env : FetchEnv) (s : JSStr)
    (h : (fetchWithRetry url side maxR env).result = .content s) :
    (fetchWithRetry url side maxR env).logs.filter (fun l => decide (l.sev = .error)) = [] := by
  unfold fetchWithRetry at h ⊢
  by_cases hu : url = []
  · rw [if_pos hu] at h
    simp at h
  · rw [if_neg hu] at h ⊢
    exact fetchLoop_content_no_error side maxR env s (maxR + 1) 0 h

/-- helper: the aggregation phase of one side never logs an error entry. -/
theorem aggregateSide_no_error (side : String) (c : Option JSStr) (old : JSStr) :
    (aggregateSide side c old).2.filter (fun l => decide (l.sev = .error)) = [] := by
  cases c with
  | none => rfl
  | some s =>
    by_cases hs : s = []
    · simp [aggregateSide, hs]
    · simp only [aggregateSide]
      rw [if_neg hs]
      split <;> simp

/-- C3: when the shared token is signalled before either unit resolves, the
coordinator catch logs exactly one operator-terminated warning (no error), a
side still syncing or retrying falls back to idle, never to cancelled, error
or success, and a side already settled keeps its state. -/
theorem c3_cancellation (st : CoordState) (urlA urlB : JSStr) (envA envB : FetchEnv)
    (hsync : isSyncing st = false) (hurl : ¬(urlA = [] ∧ urlB = []))
    (hjoin : joinResults (fetchWithRetry urlA "A" 3 envA).result
        (fetchWithRetry urlB "B" 3 envB).result = .abortRejected) :
    (handleSyncFromUrls st urlA urlB envA envB).postLogs =
      [⟨"Synchronization sequence manually terminated by operator.", .warning⟩] ∧
    (handleSyncFromUrls st urlA urlB envA envB).postLogs.filter
      (fun l => decide (l.sev = .error)) = [] ∧
    (((fetchWithRetry urlA "A" 3 envA).state.getD st.statusA = .syncing ∨
        (fetchWithRetry urlA "A" 3 envA).state.getD st.statusA = .retrying) →
      (handleSyncFromUrls st urlA urlB envA envB).st.statusA = .idle) ∧
    (¬((fetchWithRetry urlA "A" 3 envA).state.getD st.statusA = .syncing ∨
        (fetchWithRetry urlA "A" 3 envA).state.getD st.statusA = .retrying) →
      (handleSyncFromUrls st urlA urlB envA envB).st.statusA =
        (fetchWithRetry urlA "A" 3 envA).state.getD st.statusA) ∧
    (((fetchWithRetry urlB "B" 3 envB).state.getD st.statusB = .syncing ∨
        (fetchWithRetry urlB "B" 3 envB).state.getD st.statusB = .retrying) →
      (handleSyncFromUrls st urlA urlB envA envB).st.statusB = .idle) ∧
    (¬((fetchWithRetry urlB "B" 3 envB).state.getD st.statusB = .syncing ∨
        (fetchWithRetry urlB "B" 3 envB).state.getD st.statusB = .retrying) →
      (handleSyncFromUrls st urlA urlB envA envB).st.statusB =
        (fetchWithRetry urlB "B" 3 envB).state.getD st.statusB) := by
  have hrun : handleSyncFromUrls st urlA urlB envA envB =
      ⟨⟨resetOnAbort ((fetchWithRetry urlA "A" 3 envA).state.getD st.statusA),
        resetOnAbort ((fetchWithRetry urlB "B" 3 envB).state.getD st.statusB),
        st.proxiesLeft, st.proxiesRight⟩,
      [⟨"Initiating Multi-Cluster Synchronize sequence...", .info⟩],
      (fetchWithRetry urlA "A" 3 envA).logs, (fetchWithRetry urlB "B" 3 envB).logs,
      [⟨"Synchronization sequence manually terminated by operator.", .warning⟩], true⟩ := by
    unfold handleSyncFromUrls
    rw [if_neg (by simp [hsync]), if_neg hurl]
    simp only [hjoin]
  rw [hrun]
  refine ⟨rfl, by simp, ?_, ?_, ?_, ?_⟩
  · intro h
    show resetOnAbort _ = _
    unfold resetOnAbort
    exact if_pos h
  · intro h
    show resetOnAbort _ = _
    unfold resetOnAbort
    exact if_neg h
  · intro h
    show resetOnAbort _ = _
    unfold resetOnAbort
    exact if_pos h
  · intro h
    show resetOnAbort _ = _
    unfold resetOnAbort
    exact if_neg h

/-- a concrete environment whose token is already signalled at the first
check. -/
def envAbortNow : FetchEnv := ⟨fun _ => .ok [], fun _ => true⟩

/-- a concrete idle coordinator state. -/
def stIdle : CoordState := ⟨.idle, .idle, [], []⟩

/-- C3 witness: the cancellation theorem at a concrete pre-signalled run. -/
theorem c3_cancellation_witness :
    (handleSyncFromUrls stIdle ['x'] [] envAbortNow envAbortNow).postLogs =
      [⟨"Synchronization sequence manually terminated by operator.", .warning⟩] ∧
    (handleSyncFromUrls stIdle ['x'] [] envAbortNow envAbortNow).st.statusA = .idle := by
  have h := c3_cancellation stIdle ['x'] [] envAbortNow envAbortNow rfl (by simp) rfl
  exact ⟨h.1, (h.2.2.2.1 (by decide)).trans rfl⟩

/-- C7: with a nonempty url A whose fetch resolves with nonempty content and
an empty url B, side B resolves to null at once with no attempt, no log and no
state change, only the A proxy list is replaced (with the filtered fetched
lines), B keeps its state and text, and no error entry is logged anywhere. -/
theorem c7_independence (st : CoordState) (urlA : JSStr) (envA envB : FetchEnv) (s : JSStr)
    (hsync : isSyncing st = false) (hu : urlA ≠ [])
    (hres : (fetchWithRetry urlA "A" 3 envA).result = .content s) (hs : s ≠ []) :
    (fetchWithRetry [] "B" 3 envB).result = .nullResult ∧
    (fetchWithRetry [] "B" 3 envB).attempts = 0 ∧
    (fetchWithRetry [] "B" 3 envB).logs = [] ∧
    (fetchWithRetry [] "B" 3 envB).state = none ∧
    (handleSyncFromUrls st urlA [] envA envB).st.statusB = st.statusB ∧
    (handleSyncFromUrls st urlA [] envA envB).st.proxiesRight = st.proxiesRight ∧
    (handleSyncFromUrls st urlA [] envA envB).st.proxiesLeft =
      List.intercalate ['\n']
        ((nonemptyTrimmedLines s).filter (fun l => proxyRegexTest l)) ∧
    ((handleSyncFromUrls st urlA [] envA envB).preLogs ++
      (handleSyncFromUrls st urlA [] envA envB).logsA ++
      (handleSyncFromUrls st urlA [] envA envB).logsB ++
      (handleSyncFromUrls st urlA [] envA envB).postLogs).filter
        (fun l => decide (l.sev = .error)) = [] := by
  have hjoin : joinResults (fetchWithRetry urlA "A" 3 envA).result
      (fetchWithRetry [] "B" 3 envB).result = .settled (some s) none := by
    rw [hres]
    rfl
  have hrun : handleSyncFromUrls st urlA [] envA envB =
      ⟨⟨(fetchWithRetry urlA "A" 3 envA).state.getD st.statusA, st.statusB,
        (aggregateSide "A" (some s) st.proxiesLeft).1,
        (aggregateSide "B" none st.proxiesRight).1⟩,
      [⟨"Initiating Multi-Cluster Synchronize sequence...", .info⟩],
      (fetchWithRetry urlA "A" 3 envA).logs, [],
      (aggregateSide "A" (some s) st.proxiesLeft).2 ++
        (aggregateSide "B" none st.proxiesRight).2, true⟩ := by
    unfold handleSyncFromUrls
    rw [if_neg (by simp [hsync]), if_neg (by simp [hu])]
    simp only [hjoin]
    rfl
  have haggA1 : (aggregateSide "A" (some s) st.proxiesLeft).1 =
      List.intercalate ['\n']
        ((nonemptyTrimmedLines s).filter (fun l => proxyRegexTest l)) := by
    simp only [aggregateSide]
    rw [if_neg hs]
    split <;> rfl
  refine ⟨rfl, rfl, rfl, rfl, ?_, ?_, ?_, ?_⟩
  · rw [hrun]
  · rw [hrun]
    rfl
  · rw [hrun]
    exact haggA1
  · rw [hrun]
    simp only [List.filter_append]
    rw [fetchWithRetry_content_no_error urlA "A" 3 envA s hres,
      aggregateSide_no_error "A" (some s) st.proxiesLeft,
      aggregateSide_no_error "B" none st.proxiesRight]
    rfl

/-- a concrete environment that succeeds at once with a one-character body. -/
def envOkBody : FetchEnv := ⟨fun _ => .ok ['z'], fun _ => false⟩

/-- a concrete idle state with text on both sides. -/
def stBoth : CoordState := ⟨.idle, .idle, ['x'], ['r']⟩

/-- C7 witness: the independence theorem at a concrete successful A and empty
B. -/
theorem c7_independence_witness :
    (handleSyncFromUrls stBoth ['u'] [] envOkBody envOkBody).st.proxiesRight = ['r'] ∧
    (handleSyncFromUrls stBoth ['u'] [] envOkBody envOkBody).st.statusB = .idle ∧
    (fetchWithRetry [] "B" 3 envOkBody).result = .nullResult := by
  have h := c7_independence stBoth ['u'] envOkBody envOkBody ['z'] rfl (by decide) rfl
    (by decide)
  exact ⟨h.2.2.2.2.2.1.trans rfl, h.2.2.2.2.1.trans rfl, h.1⟩

/-- C4 (amended): for every side whose fetch produced truthy (non-null and
nonempty) content, the coordinator replaces that side proxy text with exactly
the trimmed nonempty fetched lines that pass the pattern, joined by newline,
and logs the zero-valid warning exactly when the content had lines but none
validated, and otherwise the success entry with valid over total counts.  A
side whose truthy test fails (null, or the empty string, which JS treats as
falsy) is skipped. -/
theorem c4_aggregation (st : CoordState) (urlA urlB : JSStr) (envA envB : FetchEnv)
    (ca cb : Option JSStr)
    (hsync : isSyncing st = false) (hurl : ¬(urlA = [] ∧ urlB = []))
    (hjoin : joinResults (fetchWithRetry urlA "A" 3 envA).result
        (fetchWithRetry urlB "B" 3 envB).result = .settled ca cb) :
    (handleSyncFromUrls st urlA urlB envA envB).postLogs =
      (aggregateSide "A" ca st.proxiesLeft).2 ++ (aggregateSide "B" cb st.proxiesRight).2 ∧
    (∀ s, ca = some s → s ≠ [] →
      (handleSyncFromUrls st urlA urlB envA envB).st.proxiesLeft =
        List.intercalate ['\n']
          ((nonemptyTrimmedLines s).filter (fun l => proxyRegexTest l)) ∧
      ((nonemptyTrimmedLines s).filter (fun l => proxyRegexTest l) = [] ∧
          nonemptyTrimmedLines s ≠ [] →
        (aggregateSide "A" ca st.proxiesLeft).2 =
          [⟨s!"Cluster A fetch successful, but 0 valid proxy patterns found in {(nonemptyTrimmedLines s).length} lines.",
            .warning⟩]) ∧
      (¬((nonemptyTrimmedLines s).filter (fun l => proxyRegexTest l) = [] ∧
          nonemptyTrimmedLines s ≠ []) →
        (aggregateSide "A" ca st.proxiesLeft).2 =
          [⟨s!"Cluster A synchronization complete. Loaded {((nonemptyTrimmedLines s).filter (fun l => proxyRegexTest l)).length}/{(nonemptyTrimmedLines s).length} valid nodes.",
            .success⟩])) ∧
    (∀ s, cb = some s → s ≠ [] →
      (handleSyncFromUrls st urlA urlB envA envB).st.proxiesRight =
        List.intercalate ['\n']
          ((nonemptyTrimmedLines s).filter (fun l => proxyRegexTest l)) ∧
      ((nonemptyTrimmedLines s).filter (fun l => proxyRegexTest l) = [] ∧
          nonemptyTrimmedLines s ≠ [] →
        (aggregateSide "B" cb st.proxiesRight).2 =
          [⟨s!"Cluster B fetch successful, but 0 valid proxy patterns found in {(nonemptyTrimmedLines s).length} lines.",
            .warning⟩]) ∧
      (¬((nonemptyTrimmedLines s).filter (fun l => proxyRegexTest l) = [] ∧
          nonemptyTrimmedLines s ≠ []) →
        (aggregateSide "B" cb st.proxiesRight).2 =
          [⟨s!"Cluster B synchronization complete. Loaded {((nonemptyTrimmedLines s).filter (fun l => proxyRegexTest l)).length}/{(nonemptyTrimmedLines s).length} valid nodes.",
            .success⟩])) := by
  have hrun : handleSyncFromUrls st urlA urlB envA envB =
      ⟨⟨(fetchWithRetry urlA "A" 3 envA).state.getD st.statusA,
        (fetchWithRetry urlB "B" 3 envB).state.getD st.statusB,
        (aggregateSide "A" ca st.proxiesLeft).1,
        (aggregateSide "B" cb st.proxiesRight).1⟩,
      [⟨"Initiating Multi-Cluster Synchronize sequence...", .info⟩],
      (fetchWithRetry urlA "A" 3 envA).logs, (fetchWithRetry urlB "B" 3 envB).logs,
      (aggregateSide "A" ca st.proxiesLeft).2 ++
        (aggregateSide "B" cb st.proxiesRight).2, true⟩ := by
    unfold handleSyncFromUrls
    rw [if_neg (by simp [hsync]), if_neg hurl]
    simp only [hjoin]
  have hcond : ∀ s : JSStr,
      ((nonemptyTrimmedLines s).filter (fun l => proxyRegexTest l)).length = 0 ∧
        0 < (nonemptyTrimmedLines s).length ↔
      (nonemptyTrimmedLines s).filter (fun l => proxyRegexTest l) = [] ∧
        nonemptyTrimmedLines s ≠ [] := by
    intro s
    rw [List.length_eq_zero, List.length_pos]
  have hside : ∀ (sideLbl : String) (old : JSStr) (s : JSStr), s ≠ [] →
      (aggregateSide sideLbl (some s) old).1 =
        List.intercalate ['\n']
          ((nonemptyTrimmedLines s).filter (fun l => proxyRegexTest l)) ∧
      ((nonemptyTrimmedLines s).filter (fun l => proxyRegexTest l) = [] ∧
          nonemptyTrimmedLines s ≠ [] →
        (aggregateSide sideLbl (some s) old).2 =
          [⟨s!"Cluster {sideLbl} fetch successful, but 0 valid proxy patterns found in {(nonemptyTrimmedLines s).length} lines.",
            .warning⟩]) ∧
      (¬((nonemptyTrimmedLines s).filter (fun l => proxyRegexTest l) = [] ∧
          nonemptyTrimmedLines s ≠ []) →
        (aggregateSide sideLbl (some s) old).2 =
          [⟨s!"Cluster {sideLbl} synchronization complete. Loaded {((nonemptyTrimmedLines s).filter (fun l => proxyRegexTest l)).length}/{(nonemptyTrimmedLines s).length} valid nodes.",
            .success⟩]) := by
    intro sideLbl old s hs
    simp only [aggregateSide]
    rw [if_neg hs]
    refine ⟨by split <;> rfl, ?_, ?_⟩
    · intro h
      rw [if_pos ((hcond s).mpr h)]
    · intro h
      rw [if_neg (fun hc => h ((hcond s).mp hc))]
  refine ⟨by rw [hrun], ?_, ?_⟩
  · intro s hca hs
    subst hca
    have hS := hside "A" st.proxiesLeft s hs
    exact ⟨by rw [hrun]; exact hS.1, hS.2.1, hS.2.2⟩
  · intro s hcb hs
    subst hcb
    have hS := hside "B" st.proxiesRight s hs
    exact ⟨by rw [hrun]; exact hS.1, hS.2.1, hS.2.2⟩

/-- a concrete environment whose fetch succeeds with an empty body. -/
def envOkEmpty : FetchEnv := ⟨fun _ => .ok [], fun _ => false⟩

/-- C4 counterexample: side A fetches non-null but empty content; the claim as
stated would replace the A text with the empty filtered join, yet the source
skips the falsy empty string and leaves the old text untouched. -/
theorem c4_counterexample :
    (fetchWithRetry ['u'] "A" 3 envOkEmpty).result = .content [] ∧
    (handleSyncFromUrls stBoth ['u'] [] envOkEmpty envOkEmpty).st.proxiesLeft = ['x'] ∧
    (['x'] : JSStr) ≠ List.intercalate ['\n']
      ((nonemptyTrimmedLines []).filter (fun l => proxyRegexTest l)) := by
  exact ⟨rfl, rfl, by decide⟩

/-- C4 witness: the aggregation theorem at a concrete one-line body. -/
theorem c4_aggregation_witness :
    (handleSyncFromUrls stBoth ['u'] [] envOkBody envOkBody).st.proxiesLeft =
      List.intercalate ['\n']
        ((nonemptyTrimmedLines ['z']).filter (fun l => proxyRegexTest l)) := by
  have h := c4_aggregation stBoth ['u'] [] envOkBody envOkBody (some ['z']) none rfl
    (by simp) rfl
  exact (h.2.1 ['z'] rfl (by decide)).1

/-- helper: characters with equal code points are equal. -/
theorem charEqOfToNat {a b : Char} (h : a.toNat = b.toNat) : a = b :=
  Char.eq_of_val_eq (UInt32.eq_of_val_eq (Fin.ext h))

/-- helper: the digit test only depends on the code point. -/
theorem isDigCongr {a b : Char} (h : a.toNat = b.toNat) : isDig a = isDig b := by
  simp [isDig, h]

/-- helper: any of the empty test over a conditional singleton. -/
theorem anyEmptyIte {α : Type} {p : Prop} [Decidable p] (r : List α) :
    ((if p then [r] else []).any List.isEmpty) = (decide p && r.isEmpty) := by
  split <;> simp_all

/-- helper: a non-digit character fails every octet alternative, in any
position. -/
theorem octNonDig {s : Char} (hs : isDig s = false) :
    oct1 s = false ∧ (∀ x, oct2 s x = false) ∧ (∀ x, oct2 x s = false) ∧
    (∀ x y, oct3 s x y = false) ∧ (∀ x y, oct3 x s y = false) ∧
    (∀ x y, oct3 x y s = false) := by
  simp only [oct1, oct2, oct3, isCh, inCR, isDig] at hs ⊢
  refine ⟨?_, ?_, ?_, ?_, ?_, ?_⟩ <;>
    first
      | (intro x y
         simp only [Bool.or_eq_false_iff, Bool.and_eq_false_iff]
         simp at hs ⊢
         omega)
      | (intro x
         simp only [Bool.or_eq_false_iff, Bool.and_eq_false_iff]
         simp at hs ⊢
         omega)
      | (simp at hs ⊢
         omega)

/-- helper: when the appended part starts with a non-digit, the octet group
consumes only within the first part. -/
theorem octetRemsAppend (xs : List Char) (s : Char) (rest : List Char)
    (hs : isDig s = false) :
    octetRems (xs ++ s :: rest) = (octetRems xs).map (fun r => r ++ s :: rest) := by
  obtain ⟨h1, h2l, h2r, h3a, h3b, h3c⟩ := octNonDig hs
  match xs with
  | [] =>
    match rest with
    | [] => simp [octetRems, h1]
    | [b] => simp [octetRems, h1, h2l, h3a]
    | b :: c :: t => simp [octetRems, h1, h2l, h3a]
  | [a] =>
    match rest with
    | [] => by_cases hy : oct1 a = true <;> simp [octetRems, h2r a, hy]
    | b :: t =>
      by_cases hy : oct1 a = true <;> simp [octetRems, h2r a, h3b a b, hy]
  | [a, b] =>
    by_cases hx : oct2 a b = true <;> by_cases hy : oct1 a = true <;>
      simp [octetRems, h3c a b, hx, hy]
  | a :: b :: c :: t =>
    by_cases hx : oct3 a b c = true <;> by_cases hy : oct2 a b = true <;>
      by_cases hz : oct1 a = true <;>
      simp [octetRems, hx, hy, hz, List.map_append]

/-- helper: every octet remainder is a suffix of the input. -/
theorem octetRemsSuffix {r xs : List Char} (h : r ∈ octetRems xs) : r <:+ xs := by
  match xs with
  | [] => simp [octetRems] at h
  | [a] =>
    simp only [octetRems, memIteSingleton] at h
    rcases h with ⟨-, rfl⟩
    exact ⟨[a], rfl⟩
  | [a, b] =>
    simp only [octetRems, List.mem_append, memIteSingleton] at h
    rcases h with ⟨-, rfl⟩ | ⟨-, rfl⟩
    · exact ⟨[a, b], rfl⟩
    · exact ⟨[a], rfl⟩
  | a :: b :: c :: t =>
    simp only [octetRems, List.mem_append, memIteSingleton] at h
    rcases h with (⟨-, rfl⟩ | ⟨-, rfl⟩) | ⟨-, rfl⟩
    · exact ⟨[a, b, c], rfl⟩
    · exact ⟨[a, b], rfl⟩
    · exact ⟨[a], rfl⟩

/-- helper: consuming one octet and then the separator with code point n
succeeds exactly when the octet consumes the whole digit block and the
continuation succeeds on the rest. -/
theorem chainStep (xs : List Char) (s : Char) (n : Nat) (rest : List Char)
    (K : List Char → Bool) (hx : ∀ c ∈ xs, isDig c = true) (hs : isDig s = false)
    (hn : s.toNat = n) :
    ((octetRems (xs ++ s :: rest)).any fun r => (litRems n r).any K) =
      (octetAccept xs && K rest) := by
  rw [octetRemsAppend xs s rest hs, List.any_map]
  have key : ∀ r ∈ octetRems xs,
      ((fun r => (litRems n r).any K) ∘ fun r => r ++ s :: rest) r =
        (r.isEmpty && K rest) := by
    intro r hr
    cases r with
    | nil => simp [litRems, hn]
    | cons y ys =>
      have hy : isDig y = true := hx y ((octetRemsSuffix hr).subset (by simp))
      have hne : ¬y.toNat = n := by
        intro he
        rw [← hn] at he
        rw [isDigCongr he, hs] at hy
        cases hy
      simp [litRems, List.cons_append, hne]
  rw [anyCongrMem key, anyAndConst]
  rfl

/-- helper: on the dotted shape, the anchored pattern decomposes into the four
octet acceptances and the port acceptance. -/
theorem proxyTestLineChars (A B C D P : List Char)
    (hA : ∀ c ∈ A, isDig c = true) (hB : ∀ c ∈ B, isDig c = true)
    (hC : ∀ c ∈ C, isDig c = true) (hD : ∀ c ∈ D, isDig c = true) :
    proxyRegexTest (lineChars A B C D P) =
      (octetAccept A && (octetAccept B && (octetAccept C &&
        (octetAccept D && portAccept P)))) := by
  unfold proxyRegexTest proxyRems lineChars
  simp only [anyFlatMap]
  rw [chainStep A '.' 46 _ _ hA (by decide) (by decide)]
  rw [chainStep B '.' 46 _ _ hB (by decide) (by decide)]
  rw [chainStep C '.' 46 _ _ hC (by decide) (by decide)]
  rw [chainStep D ':' 58 _ _ hD (by decide) (by decide)]
  rfl

/-- helper: the octet group accepts a whole string exactly when it is an octet
token. -/
theorem octetAcceptIff (xs : List Char) : octetAccept xs = true ↔ octetToken xs := by
  match xs with
  | [] => simp [octetAccept, octetRems, octetToken]
  | [a] =>
    simp [octetAccept, octetRems, octetToken, anyEmptyIte, oct1, isDig, valD, dval]
    omega
  | [a, b] =>
    simp [octetAccept, octetRems, octetToken, anyEmptyIte, List.any_append, oct2, oct1,
      isDig, inCR, valD, dval]
    omega
  | [a, b, c] =>
    simp [octetAccept, octetRems, octetToken, anyEmptyIte, List.any_append, oct3, oct2,
      oct1, isCh, inCR, isDig, valD, dval]
    omega
  | a :: b :: c :: d :: t =>
    have hnot : ¬octetToken (a :: b :: c :: d :: t) := by
      rintro ⟨-, hlen, -, -⟩
      simp [List.length_cons] at hlen
    simp [octetAccept, octetRems, anyEmptyIte, List.any_append, hnot]

/-- helper: the port group accepts a whole string exactly when it is a port
token. -/
theorem portAcceptIff (xs : List Char) : portAccept xs = true ↔ portToken xs := by
  match xs with
  | [] => simp [portAccept, portRems, portToken]
  | [a] =>
    simp [portAccept, portRems, portToken, anyEmptyIte, prt1, inCR, isDig, noLeadZero,
      valD, dval]
    omega
  | [a, b] =>
    simp [portAccept, portRems, portToken, anyEmptyIte, List.any_append, prt1, inCR,
      isDig, noLeadZero, valD, dval]
    omega
  | [a, b, c] =>
    simp [portAccept, portRems, portToken, anyEmptyIte, List.any_append, prt1, inCR,
      isDig, noLeadZero, valD, dval]
    omega
  | [a, b, c, d] =>
    simp [portAccept, portRems, portToken, anyEmptyIte, List.any_append, prt1, inCR,
      isDig, noLeadZero, valD, dval]
    omega
  | [a, b, c, d, e] =>
    simp [portAccept, portRems, portToken, anyEmptyIte, List.any_append, prt5, prt1,
      isCh, inCR, isDig, noLeadZero, valD, dval]
    omega
  | a :: b :: c :: d :: e :: f :: t =>
    have hnot : ¬portToken (a :: b :: c :: d :: e :: f :: t) := by
      rintro ⟨-, hlen, -, -⟩
      simp [List.length_cons] at hlen
    simp [portAccept, portRems, anyEmptyIte, List.any_append, hnot]

/-- helper: an octet remainder splits the input with an accepted consumed
block in front. -/
theorem octetRemsSplit {r xs : List Char} (h : r ∈ octetRems xs) :
    ∃ zs, xs = zs ++ r ∧ octetAccept zs = true := by
  match xs with
  | [] => simp [octetRems] at h
  | [a] =>
    simp only [octetRems, memIteSingleton] at h
    exact ⟨[a], by simp [h.2], by simp [octetAccept, octetRems, anyEmptyIte, h.1]⟩
  | [a, b] =>
    simp only [octetRems, List.mem_append, memIteSingleton] at h
    rcases h with ⟨hc, rfl⟩ | ⟨hc, rfl⟩
    · exact ⟨[a, b], by simp,
        by simp [octetAccept, octetRems, anyEmptyIte, List.any_append, hc]⟩
    · exact ⟨[a], rfl, by simp [octetAccept, octetRems, anyEmptyIte, hc]⟩
  | a :: b :: c :: t =>
    simp only [octetRems, List.mem_append, memIteSingleton] at h
    rcases h with (⟨hc, rfl⟩ | ⟨hc, rfl⟩) | ⟨hc, rfl⟩
    · exact ⟨[a, b, c], rfl,
        by simp [octetAccept, octetRems, anyEmptyIte, List.any_append, hc]⟩
    · exact ⟨[a, b], rfl,
        by simp [octetAccept, octetRems, anyEmptyIte, List.any_append, hc]⟩
    · exact ⟨[a], rfl, by simp [octetAccept, octetRems, anyEmptyIte, hc]⟩

/-- helper: a literal remainder uncovers the consumed separator character. -/
theorem litRemsSplit {n : Nat} {r cs : List Char} (h : r ∈ litRems n cs) :
    ∃ c, cs = c :: r ∧ c.toNat = n := by
  match cs with
  | [] => simp [litRems] at h
  | c :: t =>
    simp only [litRems, memIteSingleton] at h
    exact ⟨c, by rw [h.2], h.1⟩

/-- C1: a trimmed nonempty line passes PROXY_REGEX exactly when it has the
shape A.B.C.D:PORT in which every octet is a one-to-three digit block with
value at most 255 and the port is a no-leading-zero decimal numeral with
value between 1 and 65535; in particular a line with an octet of 256 or more,
or a port of 0, or of 65536 or more, is classified invalid. -/
theorem c1_line_pattern (line : JSStr) :
    proxyRegexTest line = true ↔
      ∃ A B C D P, line = lineChars A B C D P ∧
        octetToken A ∧ octetToken B ∧ octetToken C ∧ octetToken D ∧ portToken P := by
  constructor
  · intro h0
    unfold proxyRegexTest proxyRems at h0
    simp only [anyFlatMap] at h0
    obtain ⟨r1, hr1, h1⟩ := List.any_eq_true.mp h0
    obtain ⟨A, rfl, hAacc⟩ := octetRemsSplit hr1
    obtain ⟨r2, hr2, h2⟩ := List.any_eq_true.mp h1
    obtain ⟨c1, rfl, hc1⟩ := litRemsSplit hr2
    obtain ⟨r3, hr3, h3⟩ := List.any_eq_true.mp h2
    obtain ⟨B, rfl, hBacc⟩ := octetRemsSplit hr3
    obtain ⟨r4, hr4, h4⟩ := List.any_eq_true.mp h3
    obtain ⟨c2, rfl, hc2⟩ := litRemsSplit hr4
    obtain ⟨r5, hr5, h5⟩ := List.any_eq_true.mp h4
    obtain ⟨C, rfl, hCacc⟩ := octetRemsSplit hr5
    obtain ⟨r6, hr6, h6⟩ := List.any_eq_true.mp h5
    obtain ⟨c3, rfl, hc3⟩ := litRemsSplit hr6
    obtain ⟨r7, hr7, h7⟩ := List.any_eq_true.mp h6
    obtain ⟨D, rfl, hDacc⟩ := octetRemsSplit hr7
    obtain ⟨r8, hr8, h8⟩ := List.any_eq_true.mp h7
    obtain ⟨c4, rfl, hc4⟩ := litRemsSplit hr8
    have hPacc : portAccept r8 = true := h8
    have e1 : c1 = '.' := charEqOfToNat (by rw [hc1]; rfl)
    have e2 : c2 = '.' := charEqOfToNat (by rw [hc2]; rfl)
    have e3 : c3 = '.' := charEqOfToNat (by rw [hc3]; rfl)
    have e4 : c4 = ':' := charEqOfToNat (by rw [hc4]; rfl)
    subst e1 e2 e3 e4
    exact ⟨A, B, C, D, r8, rfl, (octetAcceptIff A).mp hAacc, (octetAcceptIff B).mp hBacc,
      (octetAcceptIff C).mp hCacc, (octetAcceptIff D).mp hDacc, (portAcceptIff r8).mp hPacc⟩
  · rintro ⟨A, B, C, D, P, rfl, hA, hB, hC, hD, hP⟩
    rw [proxyTestLineChars A B C D P hA.2.2.1 hB.2.2.1 hC.2.2.1 hD.2.2.1]
    simp [(octetAcceptIff A).mpr hA, (octetAcceptIff B).mpr hB, (octetAcceptIff C).mpr hC,
      (octetAcceptIff D).mpr hD, (portAcceptIff P).mpr hP]
